import Mathlib

set_option linter.unusedVariables false

/-! Verification of the `TxBridge` transaction handle from
`cozorocks/bridge/tx.h`. The bridge state and its operations are embedded
from the header; the engine primitives it drives (RocksDB transactions,
status translation, and the body of `TxBridge::start`) live outside the
provided sources and are modelled from the specification at the interface
boundary. Every bridge operation that dereferences a possibly-null owned
pointer returns `Option`, with `none` marking the undefined null
dereference. Operations additionally return the list of engine primitive
invocations they perform, so that dispatch and call-count properties can
be stated. -/

/-- Opaque byte sequences crossing the caller boundary (keys and values). -/
abbrev RustBytes := List Nat

/-- Outcome codes at the caller boundary: ok, not-found, conflict, error. -/
inductive StatusCode
  | ok
  | notFound
  | conflict
  | err
deriving DecidableEq, Repr

/-- Engine-native outcome: a code plus a human-readable message. -/
structure EngineStatus where
  code : StatusCode
  message : String
deriving DecidableEq, Repr

/-- Status sink populated by the bridge for the caller. -/
structure RdbStatus where
  code : StatusCode
  message : String
deriving DecidableEq, Repr

/-- Modelled from the spec: `write_status` (defined in `status.h`, which is
not under the provided sources) translates the engine-native outcome into
the status sink verbatim, code plus message. -/
def write_status (s : EngineStatus) : RdbStatus :=
  { code := s.code, message := s.message }

/-- Modelled from the spec: engine read options as used by this layer;
the engine default leaves `ignore_range_deletions` off. -/
structure ReadOptions where
  verify_checksums : Bool := true
  fill_cache : Bool := true
  ignore_range_deletions : Bool := false
deriving DecidableEq, Repr

/-- Modelled from the spec: engine write options, captured when the
transaction is begun and applied when its batch is written. -/
structure WriteOptions where
  sync : Bool := false
  disableWAL : Bool := false
deriving DecidableEq, Repr

/-- Modelled from the spec: options for beginning an optimistic
transaction; `set_snapshot` stages snapshot arming. -/
structure OptimisticTransactionOptions where
  set_snapshot : Bool := false
deriving DecidableEq, Repr

/-- Modelled from the spec: options for beginning a pessimistic
transaction; `set_snapshot` stages snapshot arming. -/
structure TransactionOptions where
  set_snapshot : Bool := false
deriving DecidableEq, Repr

/-- Modelled from the spec: the base-class store pointer returned by
`get_db`, identifying the bound store; `null` models the C++ null
pointer. -/
inductive DB
  | null
  | ofTdb (id : Nat)
  | ofOdb (id : Nat)
deriving DecidableEq, Repr

/-- Modelled from the spec: a column family handle of a store. -/
structure ColumnFamilyHandle where
  owner : DB
deriving DecidableEq, Repr

/-- Modelled from the spec: `DefaultColumnFamily` of a store. -/
def DB.defaultColumnFamily (d : DB) : ColumnFamilyHandle :=
  { owner := d }

/-- Lookup in an association list of byte-sequence keys, first match
wins (the write batch is kept newest-first). -/
def assocFind {A : Type} (l : List (RustBytes × A)) (k : RustBytes) : Option A :=
  match l with
  | [] => none
  | (k2, v) :: rest => if k2 = k then some v else assocFind rest k

/-- Modelled from the spec: the engine-owned transaction object at the
interface boundary — write options captured at begin, whether a snapshot
is attached, the store view the transaction reads through, the buffered
(uncommitted) write batch newest-first, the keys registered for
update (lock or conflict-detection intent), and the savepoint stack. -/
structure Transaction where
  writeOpts : WriteOptions
  snapshotOn : Bool
  base : List (RustBytes × RustBytes)
  buffer : List (RustBytes × Option RustBytes)
  lockedKeys : List RustBytes
  savepoints : List (List (RustBytes × Option RustBytes) × List RustBytes)
deriving DecidableEq, Repr

/-- Modelled from the spec: beginning a transaction from a store captures
the write options, the staged snapshot flag, and the store contents to
read through; buffering starts empty. -/
def Transaction.begin (w : WriteOptions) (snap : Bool)
    (base : List (RustBytes × RustBytes)) : Transaction :=
  { writeOpts := w, snapshotOn := snap, base := base, buffer := [],
    lockedKeys := [], savepoints := [] }

/-- Transactional read view: buffered writes layered over the store view. -/
def Transaction.rawRead (t : Transaction) (k : RustBytes) : Option RustBytes :=
  match assocFind t.buffer k with
  | some (some v) => some v
  | some none => none
  | none => assocFind t.base k

/-- Engine success status. -/
def statusOk : EngineStatus := { code := StatusCode.ok, message := "" }

/-- Engine not-found status for a missing key. -/
def statusNotFound : EngineStatus := { code := StatusCode.notFound, message := "NotFound" }

/-- Engine not-found status for savepoint operations on an empty stack. -/
def statusNoSavepoint : EngineStatus :=
  { code := StatusCode.notFound, message := "savepoint not found" }

/-- Modelled from the spec: plain transactional `Get` — reads the
transaction view under the given read options, distinguishing not-found
from an error. -/
def Transaction.engineGet (t : Transaction) (r : ReadOptions) (k : RustBytes) :
    EngineStatus × Option RustBytes :=
  match t.rawRead k with
  | some v => (statusOk, some v)
  | none => (statusNotFound, none)

/-- Modelled from the spec: `GetForUpdate` — registers lock or
conflict-detection intent on the key in the given column family, then
reads like `Get`. -/
def Transaction.engineGetForUpdate (t : Transaction) (r : ReadOptions)
    (cf : ColumnFamilyHandle) (k : RustBytes) :
    EngineStatus × Option RustBytes × Transaction :=
  let t2 := { t with lockedKeys := k :: t.lockedKeys }
  let res := t2.engineGet r k
  (res.1, res.2, t2)

/-- Modelled from the spec: transactional `Put` buffers a write. -/
def Transaction.enginePut (t : Transaction) (k v : RustBytes) :
    EngineStatus × Transaction :=
  (statusOk, { t with buffer := (k, some v) :: t.buffer })

/-- Modelled from the spec: transactional `Delete` buffers a deletion
marker. -/
def Transaction.engineDelete (t : Transaction) (k : RustBytes) :
    EngineStatus × Transaction :=
  (statusOk, { t with buffer := (k, none) :: t.buffer })

/-- Application of one buffered entry to the store contents. -/
def applyEntry (base : List (RustBytes × RustBytes))
    (e : RustBytes × Option RustBytes) : List (RustBytes × RustBytes) :=
  match e.2 with
  | some v => (e.1, v) :: base.filter (fun p => p.1 ≠ e.1)
  | none => base.filter (fun p => p.1 ≠ e.1)

/-- Modelled from the spec: `Commit` atomically applies the buffered
batch, oldest first, and releases locks and savepoints. -/
def Transaction.engineCommit (t : Transaction) : EngineStatus × Transaction :=
  (statusOk,
    { t with base := t.buffer.reverse.foldl applyEntry t.base,
             buffer := [], lockedKeys := [], savepoints := [] })

/-- Modelled from the spec: `Rollback` discards the buffered batch and
releases locks and savepoints. -/
def Transaction.engineRollback (t : Transaction) : EngineStatus × Transaction :=
  (statusOk, { t with buffer := [], lockedKeys := [], savepoints := [] })

/-- Modelled from the spec: `SetSavePoint` pushes a marker capturing the
current buffered state and lock set. -/
def Transaction.engineSetSavePoint (t : Transaction) : Transaction :=
  { t with savepoints := (t.buffer, t.lockedKeys) :: t.savepoints }

/-- Modelled from the spec: `RollbackToSavePoint` restores the state at
the most recent marker and pops it; fails on an empty stack. -/
def Transaction.engineRollbackToSavePoint (t : Transaction) :
    EngineStatus × Transaction :=
  match t.savepoints with
  | [] => (statusNoSavepoint, t)
  | sp :: rest =>
      (statusOk, { t with buffer := sp.1, lockedKeys := sp.2, savepoints := rest })

/-- Modelled from the spec: `PopSavePoint` discards the most recent
marker without undoing buffered state; fails on an empty stack. -/
def Transaction.enginePopSavePoint (t : Transaction) : EngineStatus × Transaction :=
  match t.savepoints with
  | [] => (statusNoSavepoint, t)
  | _ :: rest => (statusOk, { t with savepoints := rest })

/-- Modelled from the spec: `SetSnapshot` attaches a point-in-time
snapshot to the live transaction. -/
def Transaction.engineSetSnapshot (t : Transaction) : Transaction :=
  { t with snapshotOn := true }

/-- Modelled from the spec: `ClearSnapshot` detaches the snapshot. -/
def Transaction.engineClearSnapshot (t : Transaction) : Transaction :=
  { t with snapshotOn := false }

/-- One engine primitive invocation performed by a bridge operation,
recording the options and column family passed through. -/
inductive EngineCall
  | getCall (r : ReadOptions) (k : RustBytes)
  | getForUpdateCall (r : ReadOptions) (cf : ColumnFamilyHandle) (k : RustBytes)
  | putCall (k v : RustBytes)
  | delCall (k : RustBytes)
  | commitCall
  | rollbackCall
  | rollbackToSavePointCall
  | popSavePointCall
deriving DecidableEq, Repr

/-- State of `TxBridge` from `tx.h`: the two raw store pointers (`none`
models the C++ null pointer), the owned transaction, and the four owned
option objects. -/
structure TxBridge where
  odb : Option Nat
  tdb : Option Nat
  tx : Option Transaction
  w_opts : Option WriteOptions
  r_opts : Option ReadOptions
  o_tx_opts : Option OptimisticTransactionOptions
  p_tx_opts : Option TransactionOptions
deriving DecidableEq, Repr

/-- Constructor `TxBridge(OptimisticTransactionDB*)` from `tx.h`:
allocates write, read and optimistic-transaction options, leaves the
pessimistic side and the transaction null, and turns on
`ignore_range_deletions`. -/
def TxBridge.ofOptimistic (odbPtr : Nat) : TxBridge :=
  { odb := some odbPtr, tdb := none, tx := none,
    w_opts := some {}, r_opts := some { ignore_range_deletions := true },
    o_tx_opts := some {}, p_tx_opts := none }

/-- Constructor `TxBridge(TransactionDB*)` from `tx.h`: allocates write,
read and pessimistic-transaction options, leaves the optimistic side and
the transaction null, and turns on `ignore_range_deletions`. -/
def TxBridge.ofPessimistic (tdbPtr : Nat) : TxBridge :=
  { odb := none, tdb := some tdbPtr, tx := none,
    w_opts := some {}, r_opts := some { ignore_range_deletions := true },
    o_tx_opts := none, p_tx_opts := some {} }

/-- Operation `get_w_opts` from `tx.h` returns a mutable reference to the
write options; caller mutation through the reference is modelled as
applying `f` to the referent. Dereferencing a null `w_opts` is undefined,
hence the `Option` result. -/
def TxBridge.with_w_opts (b : TxBridge) (f : WriteOptions → WriteOptions) :
    Option TxBridge :=
  b.w_opts.map fun w => { b with w_opts := some (f w) }

/-- Operation `verify_checksums` from `tx.h`: sets the flag on the owned
read options. -/
def TxBridge.verify_checksums (b : TxBridge) (val : Bool) : Option TxBridge :=
  b.r_opts.map fun r => { b with r_opts := some { r with verify_checksums := val } }

/-- Operation `fill_cache` from `tx.h`: sets the flag on the owned read
options. -/
def TxBridge.fill_cache (b : TxBridge) (val : Bool) : Option TxBridge :=
  b.r_opts.map fun r => { b with r_opts := some { r with fill_cache := val } }

/-- Operation `set_snapshot` from `tx.h`: when a transaction is live,
`true` attaches a snapshot to it and `false` does nothing; otherwise the
flag is staged into whichever mode-specific options object is non-null,
checking the optimistic side first. -/
def TxBridge.set_snapshot (b : TxBridge) (val : Bool) : TxBridge :=
  match b.tx with
  | some t => if val then { b with tx := some t.engineSetSnapshot } else b
  | none =>
    match b.o_tx_opts with
    | some o => { b with o_tx_opts := some { o with set_snapshot := val } }
    | none =>
      match b.p_tx_opts with
      | some p => { b with p_tx_opts := some { p with set_snapshot := val } }
      | none => b

/-- Operation `clear_snapshot` from `tx.h`: unconditionally dereferences
the owned transaction and detaches its snapshot; null `tx` is undefined,
hence the `Option` result. -/
def TxBridge.clear_snapshot (b : TxBridge) : Option TxBridge :=
  b.tx.map fun t => { b with tx := some t.engineClearSnapshot }

/-- Operation `get_db` from `tx.h`: the pessimistic store pointer when
non-null, otherwise the optimistic store pointer. -/
def TxBridge.get_db (b : TxBridge) : DB :=
  match b.tdb with
  | some i => DB.ofTdb i
  | none =>
    match b.odb with
    | some i => DB.ofOdb i
    | none => DB.null

/-- Modelled from the spec: `TxBridge::start` is declared in `tx.h` but
its body (`tx.cpp`) is not under the provided sources. Per the spec it
creates the owned transaction from the backing store, passing the current
write options and the mode-specific transaction options, whose staged
`set_snapshot` flag becomes the new transaction's snapshot policy;
`base` stands for the store contents the new transaction reads through. -/
def TxBridge.start (b : TxBridge) (base : List (RustBytes × RustBytes)) :
    Option TxBridge :=
  match b.w_opts with
  | none => none
  | some w =>
    match b.tdb, b.p_tx_opts with
    | some _, some p =>
        some { b with tx := some (Transaction.begin w p.set_snapshot base) }
    | _, _ =>
      match b.odb, b.o_tx_opts with
      | some _, some o =>
          some { b with tx := some (Transaction.begin w o.set_snapshot base) }
      | _, _ => none

/-- Operation `TxBridge::get` from `tx.h`: makes a fresh `PinnableSlice`
(the outer `some` in the first result component models the non-null
pointer from `make_unique`), dispatches on `for_update` to
`GetForUpdate` against the default column family of `get_db()` or to a
plain `Get`, both under the current read options, and writes the engine
status into the sink. Dereferencing a null `tx` or `r_opts` is undefined,
hence the `Option` result. -/
def TxBridge.get (b : TxBridge) (key : RustBytes) (for_update : Bool) :
    Option (Option RustBytes × RdbStatus × TxBridge × List EngineCall) :=
  match b.tx, b.r_opts with
  | some t, some r =>
    if for_update then
      let cf := b.get_db.defaultColumnFamily
      let res := t.engineGetForUpdate r cf key
      some (some (res.2.1.getD []), write_status res.1,
            { b with tx := some res.2.2 },
            [EngineCall.getForUpdateCall r cf key])
    else
      let res := t.engineGet r key
      some (some (res.2.getD []), write_status res.1, b,
            [EngineCall.getCall r key])
  | _, _ => none

/-- Operation `TxBridge::put` from `tx.h`: one transactional `Put`, then
`write_status` into the sink. -/
def TxBridge.put (b : TxBridge) (key val : RustBytes) :
    Option (RdbStatus × TxBridge × List EngineCall) :=
  b.tx.map fun t =>
    let res := t.enginePut key val
    (write_status res.1, { b with tx := some res.2 }, [EngineCall.putCall key val])

/-- Operation `TxBridge::del` from `tx.h`: one transactional `Delete`,
then `write_status` into the sink. -/
def TxBridge.del (b : TxBridge) (key : RustBytes) :
    Option (RdbStatus × TxBridge × List EngineCall) :=
  b.tx.map fun t =>
    let res := t.engineDelete key
    (write_status res.1, { b with tx := some res.2 }, [EngineCall.delCall key])

/-- Operation `TxBridge::commit` from `tx.h`: one `Commit`, then
`write_status` into the sink. -/
def TxBridge.commit (b : TxBridge) : Option (RdbStatus × TxBridge × List EngineCall) :=
  b.tx.map fun t =>
    let res := t.engineCommit
    (write_status res.1, { b with tx := some res.2 }, [EngineCall.commitCall])

/-- Operation `TxBridge::rollback` from `tx.h`: one `Rollback`, then
`write_status` into the sink. -/
def TxBridge.rollback (b : TxBridge) : Option (RdbStatus × TxBridge × List EngineCall) :=
  b.tx.map fun t =>
    let res := t.engineRollback
    (write_status res.1, { b with tx := some res.2 }, [EngineCall.rollbackCall])

/-- Operation `TxBridge::rollback_to_savepoint` from `tx.h`: one
`RollbackToSavePoint`, then `write_status` into the sink. -/
def TxBridge.rollback_to_savepoint (b : TxBridge) :
    Option (RdbStatus × TxBridge × List EngineCall) :=
  b.tx.map fun t =>
    let res := t.engineRollbackToSavePoint
    (write_status res.1, { b with tx := some res.2 },
     [EngineCall.rollbackToSavePointCall])

/-- Operation `TxBridge::pop_savepoint` from `tx.h`: one `PopSavePoint`,
then `write_status` into the sink. -/
def TxBridge.pop_savepoint (b : TxBridge) :
    Option (RdbStatus × TxBridge × List EngineCall) :=
  b.tx.map fun t =>
    let res := t.enginePopSavePoint
    (write_status res.1, { b with tx := some res.2 },
     [EngineCall.popSavePointCall])

/-- Operation `TxBridge::set_savepoint` from `tx.h`: one `SetSavePoint`
on the owned transaction. -/
def TxBridge.set_savepoint (b : TxBridge) : Option TxBridge :=
  b.tx.map fun t => { b with tx := some t.engineSetSavePoint }

/-- One bridge operation step, relating a handle state to a successor
state; used to state invariants over a handle's lifetime. -/
inductive Step : TxBridge → TxBridge → Prop
  | with_w_opts (b b2 : TxBridge) (f : WriteOptions → WriteOptions) :
      b.with_w_opts f = some b2 → Step b b2
  | verify_checksums (b b2 : TxBridge) (v : Bool) :
      b.verify_checksums v = some b2 → Step b b2
  | fill_cache (b b2 : TxBridge) (v : Bool) :
      b.fill_cache v = some b2 → Step b b2
  | set_snapshot (b : TxBridge) (v : Bool) : Step b (b.set_snapshot v)
  | clear_snapshot (b b2 : TxBridge) : b.clear_snapshot = some b2 → Step b b2
  | start (b b2 : TxBridge) (base : List (RustBytes × RustBytes)) :
      b.start base = some b2 → Step b b2
  | get (b b2 : TxBridge) (key : RustBytes) (fu : Bool) (ret : Option RustBytes)
      (st : RdbStatus) (tr : List EngineCall) :
      b.get key fu = some (ret, st, b2, tr) → Step b b2
  | put (b b2 : TxBridge) (key val : RustBytes) (st : RdbStatus)
      (tr : List EngineCall) : b.put key val = some (st, b2, tr) → Step b b2
  | del (b b2 : TxBridge) (key : RustBytes) (st : RdbStatus)
      (tr : List EngineCall) : b.del key = some (st, b2, tr) → Step b b2
  | commit (b b2 : TxBridge) (st : RdbStatus) (tr : List EngineCall) :
      b.commit = some (st, b2, tr) → Step b b2
  | rollback (b b2 : TxBridge) (st : RdbStatus) (tr : List EngineCall) :
      b.rollback = some (st, b2, tr) → Step b b2
  | rollback_to_savepoint (b b2 : TxBridge) (st : RdbStatus)
      (tr : List EngineCall) : b.rollback_to_savepoint = some (st, b2, tr) → Step b b2
  | pop_savepoint (b b2 : TxBridge) (st : RdbStatus) (tr : List EngineCall) :
      b.pop_savepoint = some (st, b2, tr) → Step b b2
  | set_savepoint (b b2 : TxBridge) : b.set_savepoint = some b2 → Step b b2

/-- Reachability of one handle state from another through bridge
operations. -/
def ReachableFrom (b0 b : TxBridge) : Prop := Relation.ReflTransGen Step b0 b

/-- No bridge operation changes the store pointers or the read options
beyond the two user-facing flags; in particular `ignore_range_deletions`
is preserved. -/
theorem Step.keeps_store_and_ignore_flag (b b2 : TxBridge) (h : Step b b2) :
    b2.odb = b.odb ∧ b2.tdb = b.tdb ∧
    b2.r_opts.map ReadOptions.ignore_range_deletions =
      b.r_opts.map ReadOptions.ignore_range_deletions := by
  cases h with
  | with_w_opts b2 f h =>
      cases hw : b.w_opts with
      | none => simp [TxBridge.with_w_opts, hw] at h
      | some w =>
          simp [TxBridge.with_w_opts, hw] at h
          subst h
          simp
  | verify_checksums b2 v h =>
      cases hr : b.r_opts with
      | none => simp [TxBridge.verify_checksums, hr] at h
      | some r =>
          simp [TxBridge.verify_checksums, hr] at h
          subst h
          simp
  | fill_cache b2 v h =>
      cases hr : b.r_opts with
      | none => simp [TxBridge.fill_cache, hr] at h
      | some r =>
          simp [TxBridge.fill_cache, hr] at h
          subst h
          simp
  | set_snapshot v =>
      cases ht : b.tx with
      | some t => cases v <;> simp [TxBridge.set_snapshot, ht]
      | none =>
          cases ho : b.o_tx_opts with
          | some o => simp [TxBridge.set_snapshot, ht, ho]
          | none =>
              cases hp : b.p_tx_opts with
              | some p => simp [TxBridge.set_snapshot, ht, ho, hp]
              | none => simp [TxBridge.set_snapshot, ht, ho, hp]
  | clear_snapshot b2 h =>
      cases ht : b.tx with
      | none => simp [TxBridge.clear_snapshot, ht] at h
      | some t =>
          simp [TxBridge.clear_snapshot, ht] at h
          subst h
          simp
  | start b2 base h =>
      cases hw : b.w_opts with
      | none => simp [TxBridge.start, hw] at h
      | some w =>
          cases htd : b.tdb with
          | some i =>
              cases hp : b.p_tx_opts with
              | some p =>
                  simp [TxBridge.start, hw, htd, hp] at h
                  subst h
                  simp
              | none =>
                  cases hod : b.odb with
                  | none => simp [TxBridge.start, hw, htd, hp, hod] at h
                  | some j =>
                      cases ho : b.o_tx_opts with
                      | none => simp [TxBridge.start, hw, htd, hp, hod, ho] at h
                      | some o =>
                          simp [TxBridge.start, hw, htd, hp, hod, ho] at h
                          subst h
                          simp
          | none =>
              cases hod : b.odb with
              | none => simp [TxBridge.start, hw, htd, hod] at h
              | some j =>
                  cases ho : b.o_tx_opts with
                  | none => simp [TxBridge.start, hw, htd, hod, ho] at h
                  | some o =>
                      simp [TxBridge.start, hw, htd, hod, ho] at h
                      subst h
                      simp
  | get b2 key fu ret st tr h =>
      cases ht : b.tx with
      | none => simp [TxBridge.get, ht] at h
      | some t =>
          cases hr : b.r_opts with
          | none => simp [TxBridge.get, ht, hr] at h
          | some r =>
              cases fu with
              | true =>
                  simp [TxBridge.get, ht, hr] at h
                  obtain ⟨h1, h2, h3, h4⟩ := h
                  subst h3
                  simp
              | false =>
                  simp [TxBridge.get, ht, hr] at h
                  obtain ⟨h1, h2, h3, h4⟩ := h
                  subst h3
                  simp [hr]
  | put b2 key val st tr h =>
      cases ht : b.tx with
      | none => simp [TxBridge.put, ht] at h
      | some t =>
          simp [TxBridge.put, ht] at h
          obtain ⟨h1, h2, h3⟩ := h
          subst h2
          simp
  | del b2 key st tr h =>
      cases ht : b.tx with
      | none => simp [TxBridge.del, ht] at h
      | some t =>
          simp [TxBridge.del, ht] at h
          obtain ⟨h1, h2, h3⟩ := h
          subst h2
          simp
  | commit b2 st tr h =>
      cases ht : b.tx with
      | none => simp [TxBridge.commit, ht] at h
      | some t =>
          simp [TxBridge.commit, ht] at h
          obtain ⟨h1, h2, h3⟩ := h
          subst h2
          simp
  | rollback b2 st tr h =>
      cases ht : b.tx with
      | none => simp [TxBridge.rollback, ht] at h
      | some t =>
          simp [TxBridge.rollback, ht] at h
          obtain ⟨h1, h2, h3⟩ := h
          subst h2
          simp
  | rollback_to_savepoint b2 st tr h =>
      cases ht : b.tx with
      | none => simp [TxBridge.rollback_to_savepoint, ht] at h
      | some t =>
          simp [TxBridge.rollback_to_savepoint, ht] at h
          obtain ⟨h1, h2, h3⟩ := h
          subst h2
          simp
  | pop_savepoint b2 st tr h =>
      cases ht : b.tx with
      | none => simp [TxBridge.pop_savepoint, ht] at h
      | some t =>
          simp [TxBridge.pop_savepoint, ht] at h
          obtain ⟨h1, h2, h3⟩ := h
          subst h2
          simp
  | set_savepoint b2 h =>
      cases ht : b.tx with
      | none => simp [TxBridge.set_savepoint, ht] at h
      | some t =>
          simp [TxBridge.set_savepoint, ht] at h
          subst h
          simp

/-- Pointer fields and the range-deletion flag are preserved along any
sequence of bridge operations. -/
theorem ReachableFrom.preserves_pointers_and_ignore (b0 b : TxBridge)
    (h : ReachableFrom b0 b) :
    b.odb = b0.odb ∧ b.tdb = b0.tdb ∧
    b.r_opts.map ReadOptions.ignore_range_deletions =
      b0.r_opts.map ReadOptions.ignore_range_deletions := by
  induction h with
  | refl => exact ⟨rfl, rfl, rfl⟩
  | tail hs hstep ih =>
      obtain ⟨h1, h2, h3⟩ := Step.keeps_store_and_ignore_flag _ _ hstep
      exact ⟨h1.trans ih.1, h2.trans ih.2.1, h3.trans ih.2.2⟩

/-- Sample store contents for concrete witnesses. -/
def sampleBase : List (RustBytes × RustBytes) := [([0], [7])]

/-- Sample live transaction for concrete witnesses. -/
def tx0 : Transaction := Transaction.begin {} false sampleBase

/-- Sample optimistic handle with a live transaction, as produced by
construction followed by `start`. -/
def activeOpt : TxBridge :=
  { TxBridge.ofOptimistic 0 with tx := some tx0 }

/-- Read options of a freshly constructed handle. -/
def rOpts0 : ReadOptions := { ignore_range_deletions := true }

/-- Claim C1: with a transaction active, `get` looks the key up through
the current transaction against the default column family of the bound
store, under the handle's current read options in both branches; with
`for_update` true it is the lock/conflict-registering `GetForUpdate`,
with `for_update` false the plain transactional `Get`. -/
theorem get_dispatches_on_for_update (b : TxBridge) (t : Transaction)
    (r : ReadOptions) (key : RustBytes) (ht : b.tx = some t)
    (hr : b.r_opts = some r) :
    b.get key true =
      some (some ((t.engineGetForUpdate r (b.get_db.defaultColumnFamily) key).2.1.getD []),
            write_status (t.engineGetForUpdate r (b.get_db.defaultColumnFamily) key).1,
            { b with tx := some (t.engineGetForUpdate r (b.get_db.defaultColumnFamily) key).2.2 },
            [EngineCall.getForUpdateCall r (b.get_db.defaultColumnFamily) key]) ∧
    b.get key false =
      some (some ((t.engineGet r key).2.getD []),
            write_status (t.engineGet r key).1, b,
            [EngineCall.getCall r key]) := by
  constructor <;> simp [TxBridge.get, ht, hr]

/-- Concrete instantiation of the `get` dispatch property at a live
optimistic handle. -/
theorem get_dispatches_on_for_update_witness :
    activeOpt.tx = some tx0 ∧ activeOpt.r_opts = some rOpts0 ∧
    (activeOpt.get [0] true =
      some (some ((tx0.engineGetForUpdate rOpts0 (activeOpt.get_db.defaultColumnFamily) [0]).2.1.getD []),
            write_status (tx0.engineGetForUpdate rOpts0 (activeOpt.get_db.defaultColumnFamily) [0]).1,
            { activeOpt with tx := some (tx0.engineGetForUpdate rOpts0 (activeOpt.get_db.defaultColumnFamily) [0]).2.2 },
            [EngineCall.getForUpdateCall rOpts0 (activeOpt.get_db.defaultColumnFamily) [0]]) ∧
     activeOpt.get [0] false =
      some (some ((tx0.engineGet rOpts0 [0]).2.getD []),
            write_status (tx0.engineGet rOpts0 [0]).1, activeOpt,
            [EngineCall.getCall rOpts0 [0]])) :=
  ⟨rfl, rfl, get_dispatches_on_for_update activeOpt tx0 rOpts0 [0] rfl rfl⟩

/-- Claim C2: `set_snapshot` is phase-dependent — with a live transaction,
`true` attaches a snapshot and `false` changes nothing; with no
transaction, the flag is staged into whichever mode-specific options
object is present, leaving every other field (in particular the absent
side) untouched. -/
theorem set_snapshot_phase_dependent (b : TxBridge) (v : Bool) :
    (∀ t, b.tx = some t →
        b.set_snapshot true = { b with tx := some { t with snapshotOn := true } } ∧
        b.set_snapshot false = b) ∧
    (∀ o, b.tx = none → b.o_tx_opts = some o →
        b.set_snapshot v = { b with o_tx_opts := some { o with set_snapshot := v } }) ∧
    (∀ p, b.tx = none → b.o_tx_opts = none → b.p_tx_opts = some p →
        b.set_snapshot v = { b with p_tx_opts := some { p with set_snapshot := v } }) := by
  refine ⟨fun t ht => ?_, fun o ht ho => ?_, fun p ht ho hp => ?_⟩
  · exact ⟨by simp [TxBridge.set_snapshot, ht, Transaction.engineSetSnapshot],
           by simp [TxBridge.set_snapshot, ht]⟩
  · simp [TxBridge.set_snapshot, ht, ho]
  · simp [TxBridge.set_snapshot, ht, ho, hp]

/-- Concrete instantiation of the snapshot-arming phase policy on a live
handle and on an unstarted optimistic handle. -/
theorem set_snapshot_phase_dependent_witness :
    activeOpt.tx = some tx0 ∧
    (activeOpt.set_snapshot true = { activeOpt with tx := some { tx0 with snapshotOn := true } } ∧
     activeOpt.set_snapshot false = activeOpt) ∧
    (TxBridge.ofOptimistic 0).tx = none ∧
    (TxBridge.ofOptimistic 0).o_tx_opts = some {} ∧
    (TxBridge.ofOptimistic 0).set_snapshot true =
      { TxBridge.ofOptimistic 0 with o_tx_opts := some { set_snapshot := true } } :=
  ⟨rfl, (set_snapshot_phase_dependent activeOpt true).1 tx0 rfl, rfl, rfl,
   (set_snapshot_phase_dependent (TxBridge.ofOptimistic 0) true).2.1 {} rfl rfl⟩

/-- Claim C5: every fallible operation on a live transaction populates the
status sink with the engine-native outcome passed through `write_status`
verbatim, and performs exactly one engine primitive invocation, with no
internal retry. -/
theorem fallible_ops_populate_status_once (b : TxBridge) (t : Transaction)
    (ht : b.tx = some t) :
    (∀ r key fu, b.r_opts = some r → ∃ ret b2,
        b.get key fu = some (ret,
          write_status (if fu then (t.engineGetForUpdate r (b.get_db.defaultColumnFamily) key).1
                        else (t.engineGet r key).1), b2,
          [if fu then EngineCall.getForUpdateCall r (b.get_db.defaultColumnFamily) key
           else EngineCall.getCall r key])) ∧
    (∀ key val, b.put key val = some (write_status (t.enginePut key val).1,
        { b with tx := some (t.enginePut key val).2 }, [EngineCall.putCall key val])) ∧
    (∀ key, b.del key = some (write_status (t.engineDelete key).1,
        { b with tx := some (t.engineDelete key).2 }, [EngineCall.delCall key])) ∧
    (b.commit = some (write_status t.engineCommit.1,
        { b with tx := some t.engineCommit.2 }, [EngineCall.commitCall])) ∧
    (b.rollback = some (write_status t.engineRollback.1,
        { b with tx := some t.engineRollback.2 }, [EngineCall.rollbackCall])) ∧
    (b.rollback_to_savepoint = some (write_status t.engineRollbackToSavePoint.1,
        { b with tx := some t.engineRollbackToSavePoint.2 },
        [EngineCall.rollbackToSavePointCall])) ∧
    (b.pop_savepoint = some (write_status t.enginePopSavePoint.1,
        { b with tx := some t.enginePopSavePoint.2 },
        [EngineCall.popSavePointCall])) := by
  refine ⟨?_, ?_, ?_, ?_, ?_, ?_, ?_⟩
  · intro r key fu hr
    cases fu with
    | true =>
        refine ⟨some ((t.engineGetForUpdate r (b.get_db.defaultColumnFamily) key).2.1.getD []),
                { b with tx := some (t.engineGetForUpdate r (b.get_db.defaultColumnFamily) key).2.2 },
                ?_⟩
        simp [TxBridge.get, ht, hr]
    | false =>
        refine ⟨some ((t.engineGet r key).2.getD []), b, ?_⟩
        simp [TxBridge.get, ht, hr]
  · intro key val
    simp [TxBridge.put, ht]
  · intro key
    simp [TxBridge.del, ht]
  · simp [TxBridge.commit, ht]
  · simp [TxBridge.rollback, ht]
  · simp [TxBridge.rollback_to_savepoint, ht]
  · simp [TxBridge.pop_savepoint, ht]

/-- Concrete instantiation of the status discipline: `commit` on a live
handle writes the engine commit outcome through verbatim with a single
engine invocation. -/
theorem fallible_ops_populate_status_once_witness :
    activeOpt.tx = some tx0 ∧
    activeOpt.commit = some (write_status tx0.engineCommit.1,
      { activeOpt with tx := some tx0.engineCommit.2 }, [EngineCall.commitCall]) :=
  ⟨rfl, (fallible_ops_populate_status_once activeOpt tx0 rfl).2.2.2.1⟩

/-- Claim C6: in every state reachable from either constructor, the read
options are present with `ignore_range_deletions` true — both
constructors set it and no bridge operation ever changes it. -/
theorem ignore_range_deletions_invariant (b0 b : TxBridge)
    (h0 : (∃ i, b0 = TxBridge.ofOptimistic i) ∨ (∃ i, b0 = TxBridge.ofPessimistic i))
    (h : ReachableFrom b0 b) :
    ∃ r, b.r_opts = some r ∧ r.ignore_range_deletions = true := by
  obtain ⟨h1, h2, h3⟩ := ReachableFrom.preserves_pointers_and_ignore b0 b h
  have hig : b.r_opts.map ReadOptions.ignore_range_deletions = some true := by
    rcases h0 with ⟨i, rfl⟩ | ⟨i, rfl⟩ <;>
      simpa [TxBridge.ofOptimistic, TxBridge.ofPessimistic] using h3
  cases hb : b.r_opts with
  | none => rw [hb] at hig; simp at hig
  | some r =>
      rw [hb] at hig
      simp at hig
      exact ⟨r, rfl, hig⟩

/-- Concrete instantiation of the range-deletion invariant after a
constructor plus a `start` step. -/
theorem ignore_range_deletions_invariant_witness :
    ReachableFrom (TxBridge.ofOptimistic 0) activeOpt ∧
    ((∃ i, TxBridge.ofOptimistic 0 = TxBridge.ofOptimistic i) ∨
     (∃ i, TxBridge.ofOptimistic 0 = TxBridge.ofPessimistic i)) ∧
    ∃ r, activeOpt.r_opts = some r ∧ r.ignore_range_deletions = true := by
  have hc : ReachableFrom (TxBridge.ofOptimistic 0) activeOpt :=
    Relation.ReflTransGen.tail Relation.ReflTransGen.refl
      (Step.start (TxBridge.ofOptimistic 0) activeOpt sampleBase rfl)
  exact ⟨hc, Or.inl ⟨0, rfl⟩,
         ignore_range_deletions_invariant (TxBridge.ofOptimistic 0) activeOpt
           (Or.inl ⟨0, rfl⟩) hc⟩

/-- Claim C7: construction establishes mutual exclusion — the optimistic
constructor leaves exactly the optimistic store pointer and optimistic
transaction options non-null and the pessimistic side null, the
pessimistic constructor the converse; both allocate write and read
options, and the transaction is null until `start`. -/
theorem constructors_mutually_exclusive (i j : Nat) :
    ((TxBridge.ofOptimistic i).odb = some i ∧
     (TxBridge.ofOptimistic i).o_tx_opts.isSome = true ∧
     (TxBridge.ofOptimistic i).tdb = none ∧
     (TxBridge.ofOptimistic i).p_tx_opts = none ∧
     (TxBridge.ofOptimistic i).w_opts.isSome = true ∧
     (TxBridge.ofOptimistic i).r_opts.isSome = true ∧
     (TxBridge.ofOptimistic i).tx = none) ∧
    ((TxBridge.ofPessimistic j).tdb = some j ∧
     (TxBridge.ofPessimistic j).p_tx_opts.isSome = true ∧
     (TxBridge.ofPessimistic j).odb = none ∧
     (TxBridge.ofPessimistic j).o_tx_opts = none ∧
     (TxBridge.ofPessimistic j).w_opts.isSome = true ∧
     (TxBridge.ofPessimistic j).r_opts.isSome = true ∧
     (TxBridge.ofPessimistic j).tx = none) :=
  ⟨⟨rfl, rfl, rfl, rfl, rfl, rfl, rfl⟩, ⟨rfl, rfl, rfl, rfl, rfl, rfl, rfl⟩⟩

/-- Claim C8: `clear_snapshot` requires a live transaction; with one it
detaches the snapshot with no null dereference, and with no transaction
the call is the undefined null dereference. -/
theorem clear_snapshot_requires_live_tx (b : TxBridge) :
    (∀ t, b.tx = some t →
        b.clear_snapshot = some { b with tx := some { t with snapshotOn := false } }) ∧
    (b.tx = none → b.clear_snapshot = none) := by
  constructor
  · intro t ht
    simp [TxBridge.clear_snapshot, ht, Transaction.engineClearSnapshot]
  · intro ht
    simp [TxBridge.clear_snapshot, ht]

/-- Concrete instantiation of the `clear_snapshot` precondition property
on a live handle. -/
theorem clear_snapshot_requires_live_tx_witness :
    activeOpt.tx = some tx0 ∧
    activeOpt.clear_snapshot =
      some { activeOpt with tx := some { tx0 with snapshotOn := false } } :=
  ⟨rfl, (clear_snapshot_requires_live_tx activeOpt).1 tx0 rfl⟩

/-- Claim C9: over a handle's whole lifetime `get_db` returns exactly the
store pointer supplied at construction — the pessimistic store for the
pessimistic constructor, otherwise the optimistic store — and it is never
null. -/
theorem get_db_constant_nonnull (i : Nat) (b : TxBridge) :
    (ReachableFrom (TxBridge.ofOptimistic i) b →
        b.get_db = DB.ofOdb i ∧ b.get_db ≠ DB.null) ∧
    (ReachableFrom (TxBridge.ofPessimistic i) b →
        b.get_db = DB.ofTdb i ∧ b.get_db ≠ DB.null) := by
  constructor
  · intro h
    obtain ⟨h1, h2, h3⟩ := ReachableFrom.preserves_pointers_and_ignore _ _ h
    have hdb : b.get_db = DB.ofOdb i := by
      simp [TxBridge.get_db, h1, h2, TxBridge.ofOptimistic]
    exact ⟨hdb, by simp [hdb]⟩
  · intro h
    obtain ⟨h1, h2, h3⟩ := ReachableFrom.preserves_pointers_and_ignore _ _ h
    have hdb : b.get_db = DB.ofTdb i := by
      simp [TxBridge.get_db, h1, h2, TxBridge.ofPessimistic]
    exact ⟨hdb, by simp [hdb]⟩

/-- Concrete instantiation of the `get_db` stability property after a
constructor plus a `start` step. -/
theorem get_db_constant_nonnull_witness :
    ReachableFrom (TxBridge.ofOptimistic 0) activeOpt ∧
    (activeOpt.get_db = DB.ofOdb 0 ∧ activeOpt.get_db ≠ DB.null) := by
  have hc : ReachableFrom (TxBridge.ofOptimistic 0) activeOpt :=
    Relation.ReflTransGen.tail Relation.ReflTransGen.refl
      (Step.start (TxBridge.ofOptimistic 0) activeOpt sampleBase rfl)
  exact ⟨hc, (get_db_constant_nonnull 0 activeOpt).1 hc⟩

/-- Claim C10: on a live transaction `get` always returns a present
(non-null) value buffer; the found versus not-found versus error
distinction is carried only in the out-status, never in nullity of the
returned pointer. -/
theorem get_buffer_always_nonnull (b : TxBridge) (t : Transaction)
    (r : ReadOptions) (key : RustBytes) (fu : Bool)
    (ht : b.tx = some t) (hr : b.r_opts = some r) :
    (∃ contents st b2 tr, b.get key fu = some (some contents, st, b2, tr)) ∧
    (∀ ret st b2 tr, b.get key fu = some (ret, st, b2, tr) → ret.isSome = true) := by
  constructor
  · cases fu with
    | true =>
        refine ⟨(t.engineGetForUpdate r (b.get_db.defaultColumnFamily) key).2.1.getD [],
                write_status (t.engineGetForUpdate r (b.get_db.defaultColumnFamily) key).1,
                { b with tx := some (t.engineGetForUpdate r (b.get_db.defaultColumnFamily) key).2.2 },
                [EngineCall.getForUpdateCall r (b.get_db.defaultColumnFamily) key], ?_⟩
        simp [TxBridge.get, ht, hr]
    | false =>
        refine ⟨(t.engineGet r key).2.getD [], write_status (t.engineGet r key).1, b,
                [EngineCall.getCall r key], ?_⟩
        simp [TxBridge.get, ht, hr]
  · intro ret st b2 tr hres
    cases fu with
    | true =>
        simp [TxBridge.get, ht, hr] at hres
        obtain ⟨h1, h2, h3, h4⟩ := hres
        subst h1
        rfl
    | false =>
        simp [TxBridge.get, ht, hr] at hres
        obtain ⟨h1, h2, h3, h4⟩ := hres
        subst h1
        rfl

/-- Concrete instantiation of the non-null return buffer property on a
missing key, where the status is not-found but the buffer is present. -/
theorem get_buffer_always_nonnull_witness :
    activeOpt.tx = some tx0 ∧ activeOpt.r_opts = some rOpts0 ∧
    ((∃ contents st b2 tr, activeOpt.get [9] false = some (some contents, st, b2, tr)) ∧
     (∀ ret st b2 tr, activeOpt.get [9] false = some (ret, st, b2, tr) → ret.isSome = true)) :=
  ⟨rfl, rfl, get_buffer_always_nonnull activeOpt tx0 rOpts0 [9] false rfl rfl⟩

/-- Reads through the transaction view ignore the lock set. -/
theorem rawRead_locked (t : Transaction) (L : List RustBytes) (k : RustBytes) :
    ({ t with lockedKeys := L } : Transaction).rawRead k = t.rawRead k := rfl

/-- Prepending a buffered entry for a different key does not change the
view of `k`. -/
theorem rawRead_prepend_ne (t : Transaction) (k k2 : RustBytes)
    (x : Option RustBytes) (h : k2 ≠ k) :
    ({ t with buffer := (k2, x) :: t.buffer } : Transaction).rawRead k = t.rawRead k := by
  simp [Transaction.rawRead, assocFind, h]

/-- One data operation, for stating properties over sequences of
intervening writes. -/
inductive DataOp
  | putOp (k v : RustBytes)
  | delOp (k : RustBytes)
deriving DecidableEq, Repr

/-- Key a data operation writes. -/
def DataOp.key : DataOp → RustBytes
  | DataOp.putOp k _ => k
  | DataOp.delOp k => k

/-- Apply one data operation through the bridge, keeping the state. -/
def TxBridge.applyOp (b : TxBridge) : DataOp → Option TxBridge
  | DataOp.putOp k v => (b.put k v).map fun res => res.2.1
  | DataOp.delOp k => (b.del k).map fun res => res.2.1

/-- Apply a sequence of data operations through the bridge. -/
def TxBridge.applyOps : TxBridge → List DataOp → Option TxBridge
  | b, [] => some b
  | b, op :: rest =>
    match b.applyOp op with
    | some b2 => TxBridge.applyOps b2 rest
    | none => none

/-- Data operations on other keys preserve the transaction view of a key
and the read options of the handle. -/
theorem applyOps_preserves_view (k v : RustBytes) :
    ∀ (ops : List DataOp) (b b2 : TxBridge) (t : Transaction),
      b.tx = some t → t.rawRead k = some v →
      (∀ op ∈ ops, DataOp.key op ≠ k) →
      b.applyOps ops = some b2 →
      (∃ t2, b2.tx = some t2 ∧ t2.rawRead k = some v) ∧ b2.r_opts = b.r_opts := by
  intro ops
  induction ops with
  | nil =>
      intro b b2 t ht hv hk happ
      simp [TxBridge.applyOps] at happ
      subst happ
      exact ⟨⟨t, ht, hv⟩, rfl⟩
  | cons op rest ih =>
      intro b b2 t ht hv hk happ
      have hkop : DataOp.key op ≠ k := hk op (by simp)
      have hkrest : ∀ op2 ∈ rest, DataOp.key op2 ≠ k := fun op2 hm => hk op2 (by simp [hm])
      cases op with
      | putOp k2 v2 =>
          have hne : k2 ≠ k := by simpa [DataOp.key] using hkop
          have hstep : b.applyOp (DataOp.putOp k2 v2) =
              some { b with tx := some { t with buffer := (k2, some v2) :: t.buffer } } := by
            simp [TxBridge.applyOp, TxBridge.put, ht, Transaction.enginePut]
          simp only [TxBridge.applyOps, hstep] at happ
          obtain ⟨⟨t2, ht2, hv2⟩, hro⟩ :=
            ih _ b2 _ rfl (by rw [rawRead_prepend_ne t k k2 (some v2) hne]; exact hv)
              hkrest happ
          exact ⟨⟨t2, ht2, hv2⟩, hro.trans rfl⟩
      | delOp k2 =>
          have hne : k2 ≠ k := by simpa [DataOp.key] using hkop
          have hstep : b.applyOp (DataOp.delOp k2) =
              some { b with tx := some { t with buffer := (k2, none) :: t.buffer } } := by
            simp [TxBridge.applyOp, TxBridge.del, ht, Transaction.engineDelete]
          simp only [TxBridge.applyOps, hstep] at happ
          obtain ⟨⟨t2, ht2, hv2⟩, hro⟩ :=
            ih _ b2 _ rfl (by rw [rawRead_prepend_ne t k k2 none hne]; exact hv)
              hkrest happ
          exact ⟨⟨t2, ht2, hv2⟩, hro.trans rfl⟩

/-- Claim C4: read-your-own-writes — on a live uncommitted transaction,
`put key v` followed by `get key` with no intervening write to `key`
(arbitrary buffered writes to other keys allowed in between) returns the
written value with an ok status, in both `for_update` modes. -/
theorem put_then_get_returns_written (b b1 b2 : TxBridge) (t : Transaction)
    (r : ReadOptions) (k v : RustBytes) (st : RdbStatus) (tr : List EngineCall)
    (ops : List DataOp) (fu : Bool)
    (ht : b.tx = some t) (hr : b.r_opts = some r)
    (hput : b.put k v = some (st, b1, tr))
    (hops : ∀ op ∈ ops, DataOp.key op ≠ k)
    (happ : b1.applyOps ops = some b2) :
    st.code = StatusCode.ok ∧
    ∃ st2 b3 tr2, b2.get k fu = some (some v, st2, b3, tr2) ∧
      st2.code = StatusCode.ok := by
  simp [TxBridge.put, ht, Transaction.enginePut] at hput
  obtain ⟨hst, hb1, htr⟩ := hput
  subst hb1
  have hv : ({ t with buffer := (k, some v) :: t.buffer } : Transaction).rawRead k = some v := by
    simp [Transaction.rawRead, assocFind]
  obtain ⟨⟨t2, ht2, hv2⟩, hro⟩ :=
    applyOps_preserves_view k v ops _ b2 _ rfl hv hops happ
  have hro2 : b2.r_opts = some r := by
    rw [hro]; exact hr
  constructor
  · subst hst
    rfl
  · cases fu with
    | false =>
        refine ⟨write_status statusOk, b2, [EngineCall.getCall r k], ?_, rfl⟩
        simp [TxBridge.get, ht2, hro2, Transaction.engineGet, hv2]
    | true =>
        refine ⟨write_status statusOk,
                { b2 with tx := some { t2 with lockedKeys := k :: t2.lockedKeys } },
                [EngineCall.getForUpdateCall r (b2.get_db.defaultColumnFamily) k], ?_, rfl⟩
        simp [TxBridge.get, ht2, hro2, Transaction.engineGetForUpdate,
              Transaction.engineGet, rawRead_locked, hv2]

/-- Handle state after `put [1] [2]` on the sample handle. -/
def afterPut : TxBridge :=
  { activeOpt with tx := some { tx0 with buffer := [([1], some [2])] } }

/-- Handle state after a further `del [3]`. -/
def afterDel : TxBridge :=
  { activeOpt with tx := some { tx0 with buffer := [([3], none), ([1], some [2])] } }

/-- Concrete read-your-own-writes run: a put, an intervening delete of a
different key, then a for-update get returning the written value. -/
theorem put_then_get_returns_written_witness :
    activeOpt.tx = some tx0 ∧ activeOpt.r_opts = some rOpts0 ∧
    activeOpt.put [1] [2] =
      some (write_status statusOk, afterPut, [EngineCall.putCall [1] [2]]) ∧
    (∀ op ∈ ([DataOp.delOp [3]] : List DataOp), DataOp.key op ≠ [1]) ∧
    afterPut.applyOps [DataOp.delOp [3]] = some afterDel ∧
    ((write_status statusOk).code = StatusCode.ok ∧
     ∃ st2 b3 tr2, afterDel.get [1] true = some (some [2], st2, b3, tr2) ∧
       st2.code = StatusCode.ok) :=
  ⟨rfl, rfl, rfl, by decide, rfl,
   put_then_get_returns_written activeOpt afterPut afterDel tx0 rOpts0 [1] [2]
     (write_status statusOk) [EngineCall.putCall [1] [2]] [DataOp.delOp [3]] true
     rfl rfl rfl (by decide) rfl⟩

/-- Sample live handle whose current write options were mutated (through
`get_w_opts`) to request sync, differing from `activeOpt` only there. -/
def activeOptSync : TxBridge := { activeOpt with w_opts := some { sync := true } }

/-- Claim C3 counterexample: two live handles identical except for the
current value of `w_opts` — `put` and `del` produce identical statuses,
identical transaction effects and identical engine invocations on both,
so the effect of `put` and `del` on the engine is not parameterized by
the write options current at the call. -/
theorem put_del_ignore_current_w_opts_cex :
    activeOpt.w_opts ≠ activeOptSync.w_opts ∧
    (activeOpt.put [1] [2]).map (fun res => (res.1, res.2.1.tx, res.2.2)) =
      (activeOptSync.put [1] [2]).map (fun res => (res.1, res.2.1.tx, res.2.2)) ∧
    (activeOpt.del [1]).map (fun res => (res.1, res.2.1.tx, res.2.2)) =
      (activeOptSync.del [1]).map (fun res => (res.1, res.2.1.tx, res.2.2)) :=
  ⟨by decide, rfl, rfl⟩

/-- Claim C3 amended: `put` and `del` never consult the handle's current
write options — their engine effect (status, transaction change, engine
invocations) is invariant under any change of `w_opts`; the write options
are instead captured from the handle when `start` creates the
transaction. -/
theorem put_del_independent_of_w_opts (b : TxBridge) (w : Option WriteOptions)
    (key val : RustBytes) :
    ((({ b with w_opts := w } : TxBridge).put key val).map
        (fun res => (res.1, res.2.1.tx, res.2.2)) =
      (b.put key val).map (fun res => (res.1, res.2.1.tx, res.2.2))) ∧
    ((({ b with w_opts := w } : TxBridge).del key).map
        (fun res => (res.1, res.2.1.tx, res.2.2)) =
      (b.del key).map (fun res => (res.1, res.2.1.tx, res.2.2))) ∧
    (∀ wv base b2 t, b.w_opts = some wv → b.start base = some b2 →
        b2.tx = some t → t.writeOpts = wv) := by
  refine ⟨?_, ?_, ?_⟩
  · cases ht : b.tx <;> simp [TxBridge.put, ht]
  · cases ht : b.tx <;> simp [TxBridge.del, ht]
  · intro wv base b2 t hw hs htx
    cases htd : b.tdb with
    | some i =>
        cases hp : b.p_tx_opts with
        | some p =>
            simp [TxBridge.start, hw, htd, hp] at hs
            subst hs
            simp at htx
            subst htx
            rfl
        | none =>
            cases hod : b.odb with
            | none => simp [TxBridge.start, hw, htd, hp, hod] at hs
            | some j =>
                cases ho : b.o_tx_opts with
                | none => simp [TxBridge.start, hw, htd, hp, hod, ho] at hs
                | some o =>
                    simp [TxBridge.start, hw, htd, hp, hod, ho] at hs
                    subst hs
                    simp at htx
                    subst htx
                    rfl
    | none =>
        cases hod : b.odb with
        | none => simp [TxBridge.start, hw, htd, hod] at hs
        | some j =>
            cases ho : b.o_tx_opts with
            | none => simp [TxBridge.start, hw, htd, hod, ho] at hs
            | some o =>
                simp [TxBridge.start, hw, htd, hod, ho] at hs
                subst hs
                simp at htx
                subst htx
                rfl

/-- Concrete instantiation of the amended claim: mutated write options do
not change the put effect, and `start` captures the constructor's write
options into the transaction. -/
theorem put_del_independent_of_w_opts_witness :
    ((activeOptSync.put [1] [2]).map (fun res => (res.1, res.2.1.tx, res.2.2)) =
      (activeOpt.put [1] [2]).map (fun res => (res.1, res.2.1.tx, res.2.2))) ∧
    (TxBridge.ofOptimistic 0).w_opts = some {} ∧
    (TxBridge.ofOptimistic 0).start sampleBase = some activeOpt ∧
    activeOpt.tx = some tx0 ∧
    tx0.writeOpts = {} :=
  ⟨(put_del_independent_of_w_opts activeOpt (some { sync := true }) [1] [2]).1,
   rfl, rfl, rfl,
   (put_del_independent_of_w_opts (TxBridge.ofOptimistic 0) none [] []).2.2
     {} sampleBase activeOpt tx0 rfl rfl rfl⟩
